import Mathlib

/-!
Verification development for the Cloudflare-worker example in
src/cdn-examples/server/auth0/index.js.

The JavaScript is embedded shallowly:
  - JavaScript strings are modelled as Lean String values; the character-level
    operations (split, includes, indexOf, search, substring) are implemented on
    List Char with JavaScript clamping semantics so that everything evaluates
    by kernel reduction.
  - The outbound network calls (the verify POST, the status GET, the origin
    fetch) are oracles: functions from a call index to an Except result, where
    Except.error stands for a thrown/rejected promise and Except.ok for a
    response.  The AES-GCM encryption plus base64 encoding of the data
    exchange blob is an opaque-to-the-handler total oracle, matching the
    treatment of the platform crypto primitives as black boxes.
  - The recursive retry in verifyArkoseToken is defined by well-founded
    recursion on verifyMaxRetryCount - currentRetry; the JavaScript caller
    always starts at currentRetry = 0, which the hypothesis argument records.
  - HTMLRewriter is a black box; its effect is recorded by the EdgeResult
    constructor carrying the response, the interpolated blob field and the
    username passed to injection.
-/

namespace ArkoseAuth0

/-! ## Character-level JavaScript string operations -/

/-- Does the first list occur at the head of the second list
(JavaScript startsWith at the current scan position). -/
def leadsWith : List Char → List Char → Bool
  | [], _ => true
  | _ :: _, [] => false
  | a :: as, b :: bs => a == b && leadsWith as bs

/-- JavaScript String.prototype.includes restricted to exact substring
containment: does pat occur anywhere in s. -/
def includesL (s pat : List Char) : Bool :=
  leadsWith pat s ||
    (match s with
     | [] => false
     | _ :: t => includesL t pat)

/-- Fuel-indexed worker for splitOnL.  Each step consumes at least one
character of the input, so fuel equal to the input length never runs out;
splitOnL always supplies exactly that fuel. -/
def splitFuel (sep : List Char) : Nat → List Char → List (List Char)
  | _, [] => [[]]
  | 0, s => [s]
  | fuel + 1, c :: rest =>
    if leadsWith sep (c :: rest) && !sep.isEmpty then
      [] :: splitFuel sep fuel (List.drop sep.length (c :: rest))
    else
      match splitFuel sep fuel rest with
      | [] => [[c]]
      | seg :: segs => (c :: seg) :: segs

/-- JavaScript String.prototype.split with a non-empty string separator,
on character lists. -/
def splitOnL (sep s : List Char) : List (List Char) :=
  splitFuel sep s.length s

/-- The characters of s strictly before the first occurrence of sep
(all of s when sep does not occur). -/
def upToOcc (sep : List Char) : List Char → List Char
  | [] => []
  | c :: rest => if leadsWith sep (c :: rest) then [] else c :: upToOcc sep rest

/-- The characters of s strictly after the first occurrence of sep
(empty when sep does not occur). -/
def afterOcc (sep : List Char) : List Char → List Char
  | [] => []
  | c :: rest =>
    if leadsWith sep (c :: rest) then List.drop sep.length (c :: rest)
    else afterOcc sep rest

/-- Index of the first occurrence of pat in s, if any. -/
def firstOccIdx (pat : List Char) : List Char → Option Nat
  | [] => if pat.isEmpty then some 0 else none
  | c :: rest =>
    if leadsWith pat (c :: rest) then some 0
    else (firstOccIdx pat rest).map (fun i => i + 1)

/-! ## getCookie (index.js lines 48-60)

JavaScript:  split the header on the literal string consisting of a
semicolon and a space, take the first segment for which
cookie.includes(cookieKey) holds, split that segment on cookieKey followed
by an equals sign, and return the second component of the split; null when
the header is absent or falsy or no segment matches; the destructured value
is undefined (modelled as none) when the split produced fewer than two
parts. -/
def getCookie (cookieString : Option String) (cookieKey : String) : Option String :=
  match cookieString with
  | some cs =>
    if cs.data = [] then none
    else
      let allCookies := splitOnL ("; ".data) cs.data
      match allCookies.find? (fun cookie => includesL cookie cookieKey.data) with
      | some targetCookie =>
        match splitOnL (cookieKey.data ++ ['=']) targetCookie with
        | _ :: value :: _ => some (String.mk value)
        | _ => none
      | none => none
  | none => none

/-! ## Token verification (index.js lines 67-133) -/

/-- The session_details object of a parsed verify response body. -/
structure SessionDetails where
  solved : Bool
deriving DecidableEq

/-- A parsed verify response body: session_details may be absent. -/
structure VerifyResponse where
  session_details : Option SessionDetails
deriving DecidableEq

/-- Line 113: data.session_details and data.session_details.solved are both
truthy. -/
def solvedTruthy (data : VerifyResponse) : Bool :=
  match data.session_details with
  | some sd => sd.solved
  | none => false

/-- The observable outcome of one verifyArkoseToken call chain: the returned
object plus how many verify POSTs and health-check GETs were performed. -/
structure VerifyTrace where
  verified : Bool
  arkoseStatus : Bool
  verifyCalls : Nat
  healthCalls : Nat
deriving DecidableEq

/-- verifyArkoseToken (index.js lines 91-133).  vO gives the result of the
verify POST performed at a given currentRetry value (error = the fetch or
the json parse threw); hO gives the healthy/unhealthy answer of
checkArkoseStatus at that retry (lines 67-78 reduce any response or failure
to a Bool).  token, privateKey and verifySubdomain are carried through the
recursion unchanged, as in the source.  The JavaScript recursion is bounded
because every call chain starts at currentRetry = 0 and stops when
currentRetry reaches verifyMaxRetryCount; the hypothesis argument records
that invariant. -/
def verifyArkoseToken (vO : Nat → Except Unit VerifyResponse) (hO : Nat → Bool)
    (token privateKey verifySubdomain : String)
    (verifyMaxRetryCount currentRetry : Nat)
    (hretry : currentRetry ≤ verifyMaxRetryCount) : VerifyTrace :=
  match vO currentRetry with
  | .ok data =>
    { verified := solvedTruthy data, arkoseStatus := true
      verifyCalls := 1, healthCalls := 0 }
  | .error _ =>
    let arkoseStatus := hO currentRetry
    if arkoseStatus then
      if hmax : currentRetry = verifyMaxRetryCount then
        { verified := false, arkoseStatus := true, verifyCalls := 1, healthCalls := 1 }
      else
        let rest := verifyArkoseToken vO hO token privateKey verifySubdomain
          verifyMaxRetryCount (currentRetry + 1) (by omega)
        { verified := rest.verified, arkoseStatus := rest.arkoseStatus
          verifyCalls := rest.verifyCalls + 1, healthCalls := rest.healthCalls + 1 }
    else
      { verified := false, arkoseStatus := false, verifyCalls := 1, healthCalls := 1 }
termination_by verifyMaxRetryCount - currentRetry
decreasing_by omega

/-! ## JavaScript numeric string operations used on the GET data-exchange
path (index.js lines 416-418) -/

/-- JavaScript String.prototype.search with the pattern used by the source.
The pattern string contains no regular-expression metacharacters, so the
implicit RegExp conversion makes it an exact substring search: index of the
first occurrence, or -1. -/
def jsSearch (s pat : String) : Int :=
  match firstOccIdx pat.data s.data with
  | some i => (i : Int)
  | none => -1

/-- JavaScript String.prototype.indexOf for a single character with a start
position: a negative start is clamped to 0, a start beyond the end finds
nothing; the returned index is absolute, or -1 when the character does not
occur at or after the start. -/
def jsIndexOfFrom (s : String) (ch : Char) (fromIdx : Int) : Int :=
  let start := fromIdx.toNat
  match firstOccIdx [ch] (s.data.drop start) with
  | some i => ((i + start : Nat) : Int)
  | none => -1

/-- JavaScript String.prototype.substring: both arguments are clamped into
[0, length] and swapped when the first exceeds the second. -/
def jsSubstring (s : String) (a b : Int) : String :=
  let len := s.data.length
  let a2 := min a.toNat len
  let b2 := min b.toNat len
  let lo := min a2 b2
  let hi := max a2 b2
  String.mk (List.drop lo (List.take hi s.data))

/-- The literal marker scanned for on the GET data-exchange path
(index.js line 416); it is 23 characters long, matching the hard-coded
offset 23 in lines 417-418. -/
def usernameMarker : String := "name=\"username\" value=\""

/-- Lines 416-418: locate the marker, then take the substring from
position + 23 up to the next double quote. -/
def extractUsername (originalBody : String) : String :=
  let position := jsSearch originalBody usernameMarker
  let endpositon := jsIndexOfFrom originalBody '"' (position + 23)
  jsSubstring originalBody (position + 23) endpositon

/-! ## The request handler (index.js lines 209-467) -/

/-- The per-request environment configuration after the parsing on lines
211-225: string fields taken verbatim, numeric fields through parseNumber,
boolean fields through parseBoolean.  Retry counts are modelled as Nat. -/
structure EnvCfg where
  publicKey : String
  privateKey : String
  clientSubdomain : String
  verifySubdomain : String
  errorUrl : String
  arkoseCookieName : String
  arkoseErrorCookieName : String
  arkoseCookieLife : Int
  failOpen : Bool
  verifyMaxRetryCount : Nat
  scriptMaxRetryCount : Nat
  usingDX : Bool
  tokenEnforcement : Bool
deriving DecidableEq

/-- The parts of the incoming request the handler inspects: the method and
the Cookie header (none when request.headers.get returned null). -/
structure EdgeRequest where
  method : String
  cookieHeader : Option String
deriving DecidableEq

/-- An origin response as far as the handler observes it: its status and
its text body (read on the data-exchange path). -/
structure OriginResponse where
  status : Nat
  body : String
deriving DecidableEq

/-- The outbound-call oracles of one handler invocation.  originFetch is
indexed by the number of origin fetches already performed in this
invocation; vO and hO index the verify POST and the status GET by the
currentRetry value at which they happen; dxEncode is the
dataExchangeHandler pipeline (timestamp, AES-GCM, base64) as a black box
from the username argument to the encodedData string. -/
structure Oracles where
  originFetch : Nat → Except Unit OriginResponse
  vO : Nat → Except Unit VerifyResponse
  hO : Nat → Bool
  dxEncode : Option String → String

/-- The JavaScript value bound to blob in injectArkose (lines 233-240):
either the empty string (data exchange off) or the object returned by
dataExchangeHandler. -/
inductive BlobJs where
  | emptyStr : BlobJs
  | dx (encodedData : String) : BlobJs
deriving DecidableEq

/-- The string interpolated for blob.encodedData at line 334: property
access on the empty string yields undefined, which a template literal
renders as the string undefined. -/
def blobField : BlobJs → String
  | .emptyStr => "undefined"
  | .dx e => e

/-- What the handler returns: a redirect (handleFailure), an untouched
origin response, or an origin response passed through the HTMLRewriter
script injection carrying the interpolated blob field and the username
argument (none when injectArkose was called without a username). -/
inductive EdgeResult where
  | redirect (url : String) (status : Nat) : EdgeResult
  | plain (response : OriginResponse) : EdgeResult
  | injected (response : OriginResponse) (blobData : String)
      (username : Option String) : EdgeResult
deriving DecidableEq

/-- handleFailure (lines 140-142): a 301 redirect to the error url. -/
def handleFailure (errorUrl : String) : EdgeResult :=
  .redirect errorUrl 301

/-- injectArkose (lines 233-394): compute the blob (data exchange on:
dataExchangeHandler; off: the empty string) and transform the response by
appending the script block, whose data section interpolates
blob.encodedData. -/
def injectArkose (cfg : EnvCfg) (orc : Oracles) (response : OriginResponse)
    (username : Option String) : EdgeResult :=
  let blob := if cfg.usingDX then BlobJs.dx (orc.dxEncode username) else BlobJs.emptyStr
  .injected response (blobField blob) username

/-- checkResponse (lines 401-406): a 302 response is returned as is,
anything else goes through injectArkose, with no username argument. -/
def checkResponse (cfg : EnvCfg) (orc : Oracles) (response : OriginResponse) : EdgeResult :=
  if response.status = 302 then .plain response
  else injectArkose cfg orc response none

/-- How many outbound calls of each kind one handler invocation performed. -/
structure FetchCounts where
  originFetches : Nat
  verifyCalls : Nat
  healthCalls : Nat
deriving DecidableEq

/-- Lines 459-466: the no-token tail of the handler. -/
def noTokenBranch (cfg : EnvCfg) (orc : Oracles) : Except Unit (EdgeResult × FetchCounts) :=
  if cfg.tokenEnforcement then
    .ok (handleFailure cfg.errorUrl, ⟨0, 0, 0⟩)
  else
    match orc.originFetch 0 with
    | .error e => .error e
    | .ok response => .ok (checkResponse cfg orc response, ⟨1, 0, 0⟩)

/-- The exported fetch handler (lines 209-467).  An await whose promise
rejects is an Except.error that propagates to the caller exactly where the
source has no try/catch; the origin fetches are the only such awaits, since
verifyArkoseToken and checkArkoseStatus catch internally. -/
def edgeFetch (cfg : EnvCfg) (orc : Oracles) (req : EdgeRequest) :
    Except Unit (EdgeResult × FetchCounts) :=
  if req.method = "GET" then
    if cfg.usingDX then
      match orc.originFetch 0 with
      | .error e => .error e
      | .ok originalResponse =>
        let originalBody := originalResponse.body
        let username := extractUsername originalBody
        match orc.originFetch 1 with
        | .error e => .error e
        | .ok res => .ok (injectArkose cfg orc res (some username), ⟨2, 0, 0⟩)
    else
      match orc.originFetch 0 with
      | .error e => .error e
      | .ok res => .ok (injectArkose cfg orc res (some ""), ⟨1, 0, 0⟩)
  else
    match getCookie req.cookieHeader cfg.arkoseCookieName with
    | some arkoseToken =>
      if arkoseToken ≠ "" then
        let vt := verifyArkoseToken orc.vO orc.hO arkoseToken cfg.privateKey
          cfg.verifySubdomain cfg.verifyMaxRetryCount 0 (Nat.zero_le _)
        if vt.verified then
          match orc.originFetch 0 with
          | .error e => .error e
          | .ok response => .ok (checkResponse cfg orc response, ⟨1, vt.verifyCalls, vt.healthCalls⟩)
        else if !vt.arkoseStatus && cfg.failOpen then
          match orc.originFetch 0 with
          | .error e => .error e
          | .ok response => .ok (checkResponse cfg orc response, ⟨1, vt.verifyCalls, vt.healthCalls⟩)
        else if cfg.tokenEnforcement then
          .ok (handleFailure cfg.errorUrl, ⟨0, vt.verifyCalls, vt.healthCalls⟩)
        else
          match orc.originFetch 0 with
          | .error e => .error e
          | .ok response => .ok (checkResponse cfg orc response, ⟨1, vt.verifyCalls, vt.healthCalls⟩)
      else
        noTokenBranch cfg orc
    | none =>
      noTokenBranch cfg orc

/-! ## The cookie extractor as the specification words it (for C7) -/

/-- The claim, as stated: the value is the exact substring following the
first occurrence of the key followed by an equals sign inside a
semicolon-space-delimited segment of the header; none when the header is
absent or no segment contains the key.  (At the inputs used below the two
none conditions agree, so the looser none clause of the claim does not
matter.) -/
def getCookieSpec (cookieString : Option String) (cookieKey : String) : Option String :=
  match cookieString with
  | some cs =>
    let segments := splitOnL ("; ".data) cs.data
    match segments.find? (fun seg => includesL seg (cookieKey.data ++ ['='])) with
    | some seg => some (String.mk (afterOcc (cookieKey.data ++ ['=']) seg))
    | none => none
  | none => none

/-- The amended description of getCookie: none for an absent or empty
header; otherwise take the first segment that contains the key as a bare
substring; if that segment does not contain the key followed by an equals
sign the result is none, else it is the text strictly between the first
occurrence of key-equals and the next occurrence of key-equals (or the
segment end). -/
def getCookieAmended (cookieString : Option String) (cookieKey : String) : Option String :=
  match cookieString with
  | some cs =>
    if cs.data = [] then none
    else
      let sepKey := cookieKey.data ++ ['=']
      match (splitOnL ("; ".data) cs.data).find? (fun seg => includesL seg cookieKey.data) with
      | some seg =>
        if includesL seg sepKey then
          some (String.mk (upToOcc sepKey (afterOcc sepKey seg)))
        else none
      | none => none
  | none => none

/-! ## Helper lemmas about the character-level operations -/

theorem splitFuel_nil (sep : List Char) (fuel : Nat) :
    splitFuel sep fuel [] = [[]] := by
  cases fuel <;> simp [splitFuel]

theorem leadsWith_length_le (sep s : List Char) (h : leadsWith sep s = true) :
    sep.length ≤ s.length := by
  induction sep generalizing s with
  | nil => simp
  | cons a as ih =>
    cases s with
    | nil => simp [leadsWith] at h
    | cons b bs =>
      simp only [leadsWith, Bool.and_eq_true] at h
      have := ih bs h.2
      simp [List.length_cons]
      omega

theorem splitFuel_irrel (sep : List Char) :
    ∀ f1 f2 s, s.length ≤ f1 → s.length ≤ f2 →
      splitFuel sep f1 s = splitFuel sep f2 s := by
  intro f1
  induction f1 with
  | zero =>
    intro f2 s h1 _
    have : s = [] := by
      cases s with
      | nil => rfl
      | cons c t => simp at h1
    subst this
    rw [splitFuel_nil, splitFuel_nil]
  | succ f1 ih =>
    intro f2 s h1 h2
    cases s with
    | nil => rw [splitFuel_nil, splitFuel_nil]
    | cons c rest =>
      cases f2 with
      | zero => simp at h2
      | succ f2 =>
        simp only [splitFuel]
        by_cases hl : (leadsWith sep (c :: rest) && !sep.isEmpty) = true
        · rw [if_pos hl, if_pos hl]
          have hsep : 1 ≤ sep.length := by
            rcases Bool.and_eq_true _ _ |>.mp hl with ⟨_, hne⟩
            cases sep with
            | nil => simp at hne
            | cons x xs => simp
          have hlen : (List.drop sep.length (c :: rest)).length ≤ f1 := by
            simp only [List.length_drop, List.length_cons]
            simp only [List.length_cons] at h1
            omega
          have hlen2 : (List.drop sep.length (c :: rest)).length ≤ f2 := by
            simp only [List.length_drop, List.length_cons]
            simp only [List.length_cons] at h2
            omega
          rw [ih f2 _ hlen hlen2]
        · rw [if_neg hl, if_neg hl]
          have hr1 : rest.length ≤ f1 := by simp at h1; omega
          have hr2 : rest.length ≤ f2 := by simp at h2; omega
          rw [ih f2 rest hr1 hr2]

theorem splitOnL_not_includes (sep : List Char) :
    ∀ s, includesL s sep = false → splitOnL sep s = [s] := by
  intro s
  induction s with
  | nil => intro _; simp [splitOnL, splitFuel]
  | cons c rest ih =>
    intro h
    simp only [includesL, Bool.or_eq_false_iff] at h
    obtain ⟨hlead, hrest⟩ := h
    simp only [splitOnL, List.length_cons, splitFuel]
    rw [if_neg (by simp [hlead])]
    have : splitFuel sep rest.length rest = [rest] := ih hrest
    rw [this]

theorem splitOnL_includes (sep : List Char) (hsep : sep ≠ []) :
    ∀ s, includesL s sep = true →
      splitOnL sep s = upToOcc sep s :: splitOnL sep (afterOcc sep s) := by
  intro s
  induction s with
  | nil =>
    intro h
    simp only [includesL] at h
    rcases Bool.or_eq_true _ _ |>.mp h with h | h
    · cases sep with
      | nil => exact absurd rfl hsep
      | cons a as => simp [leadsWith] at h
    · simp at h
  | cons c rest ih =>
    intro h
    have hne : sep.isEmpty = false := by
      cases sep with
      | nil => exact absurd rfl hsep
      | cons a as => rfl
    by_cases hl : leadsWith sep (c :: rest) = true
    · simp only [splitOnL, List.length_cons, splitFuel]
      rw [if_pos (by simp [hl, hne])]
      simp only [upToOcc, afterOcc, if_pos hl]
      have hsl : 1 ≤ sep.length := by
        cases sep with
        | nil => exact absurd rfl hsep
        | cons x xs => simp
      have hd : (List.drop sep.length (c :: rest)).length ≤ rest.length := by
        simp only [List.length_drop, List.length_cons]
        omega
      rw [splitFuel_irrel sep rest.length (List.drop sep.length (c :: rest)).length _ hd le_rfl]
    · have hli : leadsWith sep (c :: rest) = false := by
        cases hx : leadsWith sep (c :: rest) with
        | true => exact absurd hx hl
        | false => rfl
      simp only [includesL, hli, Bool.false_or] at h
      simp only [splitOnL, List.length_cons, splitFuel]
      rw [if_neg (by simp [hli])]
      have := ih h
      simp only [splitOnL] at this
      rw [this]
      simp [upToOcc, afterOcc, hli]

theorem upToOcc_not_includes (sep : List Char) :
    ∀ s, includesL s sep = false → upToOcc sep s = s := by
  intro s
  induction s with
  | nil => intro _; rfl
  | cons c rest ih =>
    intro h
    simp only [includesL, Bool.or_eq_false_iff] at h
    obtain ⟨hlead, hrest⟩ := h
    simp [upToOcc, hlead, ih hrest]

theorem splitOnL_head (sep : List Char) (hsep : sep ≠ []) (s : List Char) :
    ∃ tl, splitOnL sep s = upToOcc sep s :: tl := by
  cases hinc : includesL s sep with
  | false =>
    refine ⟨[], ?_⟩
    rw [splitOnL_not_includes sep s hinc, upToOcc_not_includes sep s hinc]
  | true =>
    exact ⟨splitOnL sep (afterOcc sep s), splitOnL_includes sep hsep s hinc⟩

theorem getCookie_eq_amended_aux (seg : List Char) (sepKey : List Char)
    (hsep : sepKey ≠ []) :
    (match splitOnL sepKey seg with
     | _ :: value :: _ => some (String.mk value)
     | _ => none) =
    (if includesL seg sepKey then some (String.mk (upToOcc sepKey (afterOcc sepKey seg)))
     else none) := by
  cases hinc : includesL seg sepKey with
  | false =>
    rw [splitOnL_not_includes sepKey seg hinc]
    simp
  | true =>
    rw [splitOnL_includes sepKey hsep seg hinc]
    obtain ⟨tl, htl⟩ := splitOnL_head sepKey hsep (afterOcc sepKey seg)
    rw [htl]
    simp

/-- The cons of a character to a character list, appended with an equals
sign, is never empty. -/
theorem keyEq_ne_nil (k : String) : k.data ++ ['='] ≠ [] := by
  simp

/-! ## Occurrence-index facts used for the username extraction (C10) -/

theorem firstOccIdx_le_length (pat : List Char) :
    ∀ s i, firstOccIdx pat s = some i → i + pat.length ≤ s.length := by
  intro s
  induction s with
  | nil =>
    intro i h
    simp only [firstOccIdx] at h
    by_cases hp : pat.isEmpty
    · rw [if_pos hp] at h
      cases pat with
      | nil => simp at h; omega
      | cons a as => simp [List.isEmpty] at hp
    · rw [if_neg hp] at h
      exact absurd h (by simp)
  | cons c rest ih =>
    intro i h
    simp only [firstOccIdx] at h
    by_cases hl : leadsWith pat (c :: rest) = true
    · rw [if_pos hl] at h
      have hle := leadsWith_length_le pat (c :: rest) hl
      simp at h
      omega
    · rw [if_neg hl] at h
      rw [Option.map_eq_some'] at h
      obtain ⟨j, hj, hji⟩ := h
      have := ih j hj
      simp only [List.length_cons]
      omega

/-! ## Bound on the verify retry chain (C1) -/

theorem verify_calls_bound_aux (vO : Nat → Except Unit VerifyResponse) (hO : Nat → Bool)
    (token privateKey verifySubdomain : String) :
    ∀ (n max cur : Nat) (hcur : cur ≤ max), max - cur ≤ n →
      (verifyArkoseToken vO hO token privateKey verifySubdomain max cur hcur).verifyCalls
        ≤ (max - cur) + 1 := by
  intro n
  induction n with
  | zero =>
    intro max cur hcur hn
    have hce : cur = max := by omega
    rw [verifyArkoseToken]
    cases vO cur with
    | ok data => simp
    | error e =>
      simp only
      cases hO cur with
      | true => simp [hce]
      | false => simp
  | succ n ih =>
    intro max cur hcur hn
    rw [verifyArkoseToken]
    cases vO cur with
    | ok data => simp
    | error e =>
      simp only
      cases hO cur with
      | false => simp
      | true =>
        simp only [if_true]
        by_cases hce : cur = max
        · simp [hce]
        · rw [dif_neg hce]
          simp only
          have hbound := ih max (cur + 1) (by omega) (by omega)
          omega

/-! ## Concrete fixtures used by witnesses and counterexamples -/

def rPage : OriginResponse := ⟨200, "hello world page"⟩

def r302 : OriginResponse := ⟨302, "redirecting"⟩

def reqGet : EdgeRequest := ⟨"GET", none⟩

def reqPost : EdgeRequest := ⟨"POST", some "arkoseToken=tokvalue"⟩

def cfgBase : EnvCfg :=
  ⟨"pubkey", "privkey", "client-api", "verify-api", "https://error.example/",
   "arkoseToken", "arkoseError", 60000, false, 2, 3, false, true⟩

def cfgDX : EnvCfg := { cfgBase with usingDX := true }

def orcPass : Oracles :=
  ⟨fun _ => .ok rPage, fun _ => .ok ⟨some ⟨true⟩⟩, fun _ => true, fun _ => "ENC"⟩

def orc302 : Oracles := { orcPass with originFetch := fun _ => .ok r302 }

def orcFail : Oracles := { orcPass with originFetch := fun _ => .error () }

/-- A 23-character page body with its first double quote exactly at
character index 22. -/
def bodyQuote22 : String := "aaaaaaaaaaaaaaaaaaaaaa\""

def rBody22 : OriginResponse := ⟨200, bodyQuote22⟩

def orcBody22 : Oracles :=
  { orcPass with originFetch := fun n => if n = 0 then .ok rBody22 else .ok rPage }

/-- A 26-character page body whose first double quote sits at index 25. -/
def bodyQuote25 : String := "aaaaaaaaaaaaaaaaaaaaaaaaa\""

/-! ## Claims -/

/-- C1: for every token, private key and subdomain, if every POST to the
verify endpoint throws and the health checker reports healthy on every
check, then verifyArkoseToken with verifyMaxRetryCount = 2 and currentRetry
starting at 0 performs exactly 3 verify attempts (initial plus 2 retries,
hence at most 3) and returns verified = false with the platform reported
healthy; in general a chain started at currentRetry = 0 performs at most
verifyMaxRetryCount + 1 verify attempts. -/
theorem C1_verify_retry_termination :
    (∀ (vO : Nat → Except Unit VerifyResponse) (hO : Nat → Bool)
        (token privateKey verifySubdomain : String),
        (∀ n, vO n = Except.error ()) → (∀ n, hO n = true) →
        verifyArkoseToken vO hO token privateKey verifySubdomain 2 0 (Nat.zero_le 2) =
          ⟨false, true, 3, 3⟩)
    ∧ (∀ (vO : Nat → Except Unit VerifyResponse) (hO : Nat → Bool)
        (token privateKey verifySubdomain : String) (max : Nat),
        (verifyArkoseToken vO hO token privateKey verifySubdomain max 0
            (Nat.zero_le max)).verifyCalls ≤ max + 1) := by
  constructor
  · intro vO hO token privateKey verifySubdomain hv hh
    simp [verifyArkoseToken, hv, hh]
  · intro vO hO token privateKey verifySubdomain max
    have h := verify_calls_bound_aux vO hO token privateKey verifySubdomain
      max max 0 (Nat.zero_le max) (by omega)
    omega

/-- Witness for C1: the always-throwing verify oracle under an
always-healthy platform, at maxRetry 2. -/
theorem C1_verify_retry_termination_witness :
    verifyArkoseToken (fun _ => Except.error ()) (fun _ => true)
      "tokvalue" "privkey" "verify-api" 2 0 (Nat.zero_le 2) = ⟨false, true, 3, 3⟩ :=
  C1_verify_retry_termination.1 _ _ "tokvalue" "privkey" "verify-api"
    (fun _ => rfl) (fun _ => rfl)

/-- C2: if the first verify POST throws and the first health check reports
unhealthy, verifyArkoseToken returns verified = false and platform
unhealthy immediately, with exactly one verify attempt and exactly one
health check, whatever the remaining retry budget. -/
theorem C2_unhealthy_stops_retries (vO : Nat → Except Unit VerifyResponse)
    (hO : Nat → Bool) (token privateKey verifySubdomain : String) (max : Nat)
    (hv : vO 0 = Except.error ()) (hh : hO 0 = false) :
    verifyArkoseToken vO hO token privateKey verifySubdomain max 0 (Nat.zero_le max) =
      ⟨false, false, 1, 1⟩ := by
  rw [verifyArkoseToken, hv]
  simp [hh]

/-- Witness for C2 at a retry budget of 5. -/
theorem C2_unhealthy_stops_retries_witness :
    verifyArkoseToken (fun _ => Except.error ()) (fun _ => false)
      "tokvalue" "privkey" "verify-api" 5 0 (Nat.zero_le 5) = ⟨false, false, 1, 1⟩ :=
  C2_unhealthy_stops_retries _ _ "tokvalue" "privkey" "verify-api" 5 rfl rfl

/-- C3: whenever the verify POST at the current retry succeeds with a
parseable body, verifyArkoseToken returns immediately: platform healthy,
verified exactly when session_details is present with a truthy solved
field, one verify attempt, no health check and no further retries. -/
theorem C3_success_immediate (vO : Nat → Except Unit VerifyResponse)
    (hO : Nat → Bool) (token privateKey verifySubdomain : String)
    (max cur : Nat) (hcur : cur ≤ max) (data : VerifyResponse)
    (hv : vO cur = Except.ok data) :
    verifyArkoseToken vO hO token privateKey verifySubdomain max cur hcur =
      ⟨solvedTruthy data, true, 1, 0⟩
    ∧ (solvedTruthy data = true ↔ data.session_details = some ⟨true⟩) := by
  constructor
  · rw [verifyArkoseToken, hv]
  · cases data with
    | mk sd =>
      cases sd with
      | none => simp [solvedTruthy]
      | some s =>
        cases s with
        | mk b => cases b <;> simp [solvedTruthy]

/-- Witness for C3: a solved session at retry 0. -/
theorem C3_success_immediate_witness :
    verifyArkoseToken (fun _ => Except.ok ⟨some ⟨true⟩⟩) (fun _ => true)
      "tokvalue" "privkey" "verify-api" 2 0 (Nat.zero_le 2) =
      ⟨solvedTruthy ⟨some ⟨true⟩⟩, true, 1, 0⟩ :=
  (C3_success_immediate _ _ "tokvalue" "privkey" "verify-api" 2 0
    (Nat.zero_le 2) ⟨some ⟨true⟩⟩ rfl).1

/-- C4: for a non-GET request carrying a non-empty challenge-token cookie,
the handler decides exactly as the claim states: verified leads to an
origin fetch passed through the injection policy (checkResponse); a
platform outage with fail-open configured does the same; otherwise token
enforcement decides between the redirect to errorUrl and the fetch with
injection policy. -/
theorem C4_nonget_token_decision (cfg : EnvCfg) (orc : Oracles) (req : EdgeRequest)
    (r : OriginResponse) (tok : String) (vt : VerifyTrace)
    (hm : req.method ≠ "GET")
    (hc : getCookie req.cookieHeader cfg.arkoseCookieName = some tok)
    (hne : tok ≠ "")
    (hf : orc.originFetch 0 = Except.ok r)
    (hvt : verifyArkoseToken orc.vO orc.hO tok cfg.privateKey cfg.verifySubdomain
      cfg.verifyMaxRetryCount 0 (Nat.zero_le _) = vt) :
    (vt.verified = true →
      edgeFetch cfg orc req =
        .ok (checkResponse cfg orc r, ⟨1, vt.verifyCalls, vt.healthCalls⟩))
    ∧ (vt.verified = false → vt.arkoseStatus = false → cfg.failOpen = true →
      edgeFetch cfg orc req =
        .ok (checkResponse cfg orc r, ⟨1, vt.verifyCalls, vt.healthCalls⟩))
    ∧ (vt.verified = false → (vt.arkoseStatus = true ∨ cfg.failOpen = false) →
      cfg.tokenEnforcement = true →
      edgeFetch cfg orc req =
        .ok (handleFailure cfg.errorUrl, ⟨0, vt.verifyCalls, vt.healthCalls⟩))
    ∧ (vt.verified = false → (vt.arkoseStatus = true ∨ cfg.failOpen = false) →
      cfg.tokenEnforcement = false →
      edgeFetch cfg orc req =
        .ok (checkResponse cfg orc r, ⟨1, vt.verifyCalls, vt.healthCalls⟩)) := by
  unfold edgeFetch
  rw [if_neg hm, hc]
  simp only [if_pos hne, hvt]
  refine ⟨?_, ?_, ?_, ?_⟩
  · intro h1
    simp [h1, hf]
  · intro h1 h2 h3
    simp [h1, h2, h3, hf]
  · intro h1 h2 h3
    rcases h2 with h2 | h2 <;> simp [h1, h2, h3, hf]
  · intro h1 h2 h3
    rcases h2 with h2 | h2 <;> simp [h1, h2, h3, hf]

/-- Witness for C4: a POST with a verifying cookie under the base
configuration takes the verified branch. -/
theorem C4_nonget_token_decision_witness :
    edgeFetch cfgBase orcPass reqPost =
      .ok (checkResponse cfgBase orcPass rPage, ⟨1, 1, 0⟩) := by
  have h := C4_nonget_token_decision cfgBase orcPass reqPost rPage "tokvalue"
    ⟨true, true, 1, 0⟩ (by decide) (by decide) (by decide) rfl
    (by simp [verifyArkoseToken, solvedTruthy, orcPass, cfgBase])
  exact h.1 rfl

/-- C5: a non-GET request whose cookie header yields no challenge-token
value (absent or empty) is, under token enforcement, answered with a 301
redirect to errorUrl, with zero origin fetches, zero verify attempts and
zero health checks. -/
theorem C5_nonget_no_token_redirect (cfg : EnvCfg) (orc : Oracles) (req : EdgeRequest)
    (hm : req.method ≠ "GET")
    (hc : getCookie req.cookieHeader cfg.arkoseCookieName = none ∨
          getCookie req.cookieHeader cfg.arkoseCookieName = some "")
    (he : cfg.tokenEnforcement = true) :
    edgeFetch cfg orc req = .ok (.redirect cfg.errorUrl 301, ⟨0, 0, 0⟩) := by
  unfold edgeFetch noTokenBranch handleFailure
  rcases hc with hc | hc <;> rw [if_neg hm, hc] <;> simp [he]

/-- Witness for C5: a POST with no Cookie header under token
enforcement. -/
theorem C5_nonget_no_token_redirect_witness :
    edgeFetch cfgBase orcPass ⟨"POST", none⟩ =
      .ok (.redirect cfgBase.errorUrl 301, ⟨0, 0, 0⟩) :=
  C5_nonget_no_token_redirect cfgBase orcPass ⟨"POST", none⟩
    (by decide) (Or.inl rfl) rfl

/-- C6 counterexample: on the GET path the handler returns
injectArkose(res) directly (lines 412-428), without the 302 check of
checkResponse, so a 302 origin response on a GET request is passed through
script injection instead of being returned unmodified. -/
theorem C6_get_302_injected_counterexample :
    edgeFetch cfgBase orc302 reqGet = .ok (.injected r302 "undefined" (some ""), ⟨1, 0, 0⟩)
    ∧ EdgeResult.injected r302 "undefined" (some "") ≠ EdgeResult.plain r302 := by
  exact ⟨rfl, by decide⟩

/-- C6 (amended): a 302-status origin response is returned unmodified with
no injection attempted on the non-GET handler paths, which all route the
fetched response through checkResponse; on the GET handler path the
response is passed through script injection unconditionally, whatever its
status. -/
theorem C6_302_passthrough_amended :
    (∀ (cfg : EnvCfg) (orc : Oracles) (r : OriginResponse),
        r.status = 302 → checkResponse cfg orc r = .plain r)
    ∧ (∀ (cfg : EnvCfg) (orc : Oracles) (req : EdgeRequest) (r : OriginResponse),
        req.method = "GET" → cfg.usingDX = false → orc.originFetch 0 = Except.ok r →
        edgeFetch cfg orc req = .ok (injectArkose cfg orc r (some ""), ⟨1, 0, 0⟩)) := by
  constructor
  · intro cfg orc r h
    simp [checkResponse, h]
  · intro cfg orc req r hm hdx hf
    simp [edgeFetch, hm, hdx, hf]

/-- Witness for the amended C6: the 302 fixture through checkResponse, and
the GET path injecting into that same 302 response. -/
theorem C6_302_passthrough_amended_witness :
    checkResponse cfgBase orc302 r302 = .plain r302
    ∧ edgeFetch cfgBase orc302 reqGet =
        .ok (injectArkose cfgBase orc302 r302 (some ""), ⟨1, 0, 0⟩) :=
  ⟨C6_302_passthrough_amended.1 cfgBase orc302 r302 rfl,
   C6_302_passthrough_amended.2 cfgBase orc302 reqGet r302 rfl rfl rfl⟩

/-- C7 counterexample: the first segment is selected by bare substring
containment, so a header whose earlier segment merely contains the key
hides a later segment that carries the actual key-equals match: the claim
prescribes the value good, the code returns none (the segment does contain
the key, so the none clause of the claim does not apply either). -/
theorem C7_cookie_extractor_counterexample :
    getCookie (some "xarkoseTokenx; arkoseToken=good") "arkoseToken" = none
    ∧ getCookieSpec (some "xarkoseTokenx; arkoseToken=good") "arkoseToken" = some "good"
    ∧ includesL "xarkoseTokenx".data "arkoseToken".data = true := by
  exact ⟨rfl, rfl, rfl⟩

/-- C7 (amended): getCookie returns none when the header is absent or
empty or no semicolon-space segment contains the key as a substring;
otherwise it takes the first segment containing the key as a bare
substring and returns the text strictly between the first occurrence of
key-equals in that segment and the next occurrence of key-equals (or the
segment end), returning none when that segment does not contain key-equals
at all. -/
theorem C7_cookie_extractor_amended (cookieString : Option String) (cookieKey : String) :
    getCookie cookieString cookieKey = getCookieAmended cookieString cookieKey := by
  cases cookieString with
  | none => rfl
  | some cs =>
    unfold getCookie getCookieAmended
    dsimp only
    by_cases hz : cs.data = []
    · simp [hz]
    · rw [if_neg hz, if_neg hz]
      cases hfind : (splitOnL ("; ".data) cs.data).find?
          (fun seg => includesL seg cookieKey.data) with
      | none => simp [hfind]
      | some seg =>
        simp only [hfind]
        exact getCookie_eq_amended_aux seg (cookieKey.data ++ ['=']) (keyEq_ne_nil cookieKey)

/-- C8 counterexample: the origin fetches are awaited outside any
try/catch (lines 414, 420, 424, 441, 447, 455, 464), so a transport
failure on the origin fetch propagates to the handler caller instead of
resolving to a response or redirect. -/
theorem C8_origin_fetch_throw_counterexample :
    edgeFetch cfgBase orcFail reqGet = Except.error () := rfl

/-- C8 (amended): failures of the verify POST and of the health-check GET
never propagate (the statement quantifies over every behaviour of those
oracles), but an origin-fetch failure does; whenever every origin fetch
succeeds, the handler resolves to a passthrough, injected or redirect
response for every request and configuration. -/
theorem C8_no_throw_amended (cfg : EnvCfg) (orc : Oracles) (req : EdgeRequest)
    (hok : ∀ n, ∃ r, orc.originFetch n = Except.ok r) :
    ∃ out, edgeFetch cfg orc req = Except.ok out := by
  obtain ⟨r0, h0⟩ := hok 0
  obtain ⟨r1, h1⟩ := hok 1
  unfold edgeFetch noTokenBranch
  by_cases hm : req.method = "GET"
  · rw [if_pos hm]
    by_cases hdx : cfg.usingDX = true
    · simp [hdx, h0, h1]
    · simp only [Bool.not_eq_true] at hdx
      simp [hdx, h0]
  · rw [if_neg hm]
    cases hg : getCookie req.cookieHeader cfg.arkoseCookieName with
    | none =>
      by_cases hte : cfg.tokenEnforcement = true
      · simp [hte]
      · simp only [Bool.not_eq_true] at hte
        simp [hte, h0]
    | some tok =>
      by_cases htk : tok = ""
      · subst htk
        by_cases hte : cfg.tokenEnforcement = true
        · simp [hte]
        · simp only [Bool.not_eq_true] at hte
          simp [hte, h0]
      · simp only [ne_eq, htk, not_false_eq_true, if_true]
        set vt := verifyArkoseToken orc.vO orc.hO tok cfg.privateKey cfg.verifySubdomain
          cfg.verifyMaxRetryCount 0 (Nat.zero_le _) with hvt
        by_cases hv : vt.verified = true
        · simp [hv, h0]
        · simp only [Bool.not_eq_true] at hv
          by_cases hfo : (!vt.arkoseStatus && cfg.failOpen) = true
          · simp [hv, hfo, h0]
          · simp only [Bool.not_eq_true] at hfo
            by_cases hte : cfg.tokenEnforcement = true
            · simp [hv, hfo, hte]
            · simp only [Bool.not_eq_true] at hte
              simp [hv, hfo, hte, h0]

/-- Witness for the amended C8: an all-successful origin under the base
configuration with a verifying cookie. -/
theorem C8_no_throw_amended_witness :
    ∃ out, edgeFetch cfgBase orcPass reqPost = Except.ok out :=
  C8_no_throw_amended cfgBase orcPass reqPost (fun _ => ⟨rPage, rfl⟩)

/-- C9 counterexample: with data exchange disabled, the script block does
interpolate the literal string undefined for the blob, but that string has
nine characters, not eight as the claim states. -/
theorem C9_blob_undefined_counterexample :
    injectArkose cfgBase orcPass rPage (some "") =
      .injected rPage "undefined" (some "")
    ∧ ("undefined" : String).length = 9
    ∧ ¬ ("undefined" : String).length = 8 := by
  exact ⟨rfl, rfl, by decide⟩

/-- C9 (amended): on every path injecting the script while data exchange
is disabled, the blob interpolated into the enforcement configuration is
the literal nine-character string undefined, never an empty value or an
omitted field. -/
theorem C9_blob_undefined_amended (cfg : EnvCfg) (orc : Oracles)
    (r : OriginResponse) (u : Option String) (hdx : cfg.usingDX = false) :
    injectArkose cfg orc r u = .injected r "undefined" u
    ∧ ("undefined" : String).length = 9
    ∧ ("undefined" : String) ≠ "" := by
  refine ⟨?_, rfl, by decide⟩
  simp [injectArkose, hdx, blobField]

/-- Witness for the amended C9 at the base configuration. -/
theorem C9_blob_undefined_amended_witness :
    injectArkose cfgBase orcPass rPage (some "x") =
      .injected rPage "undefined" (some "x")
    ∧ ("undefined" : String).length = 9
    ∧ ("undefined" : String) ≠ "" :=
  C9_blob_undefined_amended cfgBase orcPass rPage (some "x") rfl

/-- C10 counterexample: a GET with data exchange on whose origin body
lacks the marker but has its first double quote exactly at index 22: the
identity hint passed to injection is the empty string, not a non-empty
fragment. -/
theorem C10_empty_hint_counterexample :
    jsSearch bodyQuote22 usernameMarker = -1
    ∧ extractUsername bodyQuote22 = ""
    ∧ edgeFetch cfgDX orcBody22 reqGet =
        .ok (.injected rPage "ENC" (some ""), ⟨2, 0, 0⟩) := by
  exact ⟨rfl, rfl, rfl⟩

/-- C10 (amended): when the marker is absent the failed search yields -1,
so the hint is the substring of the body from character index 22 up to
(excluding) the first double quote at or after index 22; it is non-empty
provided that quote sits strictly after index 22 (it is empty when the
quote is exactly at index 22, and a body with no such quote falls back to
a clamped-and-swapped substring). -/
theorem C10_username_fragment_amended (body : String) (q : Nat)
    (hm : jsSearch body usernameMarker = -1)
    (hq : jsIndexOfFrom body '"' 22 = (q : Int))
    (h22 : 22 < q) :
    extractUsername body = String.mk (List.drop 22 (List.take q body.data))
    ∧ extractUsername body ≠ "" := by
  have ht : (22 : Int).toNat = 22 := rfl
  have hq0 := hq
  unfold jsIndexOfFrom at hq0
  rw [ht] at hq0
  dsimp only at hq0
  have hqlen : q < body.data.length := by
    cases hocc : firstOccIdx ['"'] (body.data.drop 22) with
    | none =>
      rw [hocc] at hq0
      dsimp only at hq0
      omega
    | some i =>
      rw [hocc] at hq0
      dsimp only at hq0
      have hiq : i + 22 = q := by exact_mod_cast hq0
      have hlen := firstOccIdx_le_length ['"'] (body.data.drop 22) i hocc
      simp only [List.length_singleton, List.length_drop] at hlen
      omega
  have hsub : jsSubstring body 22 (q : Int) =
      String.mk (List.drop 22 (List.take q body.data)) := by
    unfold jsSubstring
    rw [ht, Int.toNat_ofNat]
    dsimp only
    congr 1
    have h22len : 22 ≤ body.data.length := by omega
    have hqle : q ≤ body.data.length := by omega
    rw [min_eq_left h22len, min_eq_left hqle,
      min_eq_left (by omega : (22 : Nat) ≤ q), max_eq_right (by omega : (22 : Nat) ≤ q)]
  have hval : extractUsername body = String.mk (List.drop 22 (List.take q body.data)) := by
    unfold extractUsername
    rw [hm]
    show jsSubstring body (-1 + 23) (jsIndexOfFrom body '"' (-1 + 23)) = _
    norm_num
    rw [hq]
    exact hsub
  refine ⟨hval, ?_⟩
  rw [hval]
  intro hcontra
  have hdata : List.drop 22 (List.take q body.data) = [] := by
    have := congrArg String.data hcontra
    simpa using this
  have hlen := congrArg List.length hdata
  simp only [List.length_drop, List.length_take, List.length_nil] at hlen
  omega

/-- Witness for the amended C10: a marker-free body whose first quote is
at index 25 produces the non-empty fragment of indices 22 to 24. -/
theorem C10_username_fragment_amended_witness :
    extractUsername bodyQuote25 = String.mk (List.drop 22 (List.take 25 bodyQuote25.data))
    ∧ extractUsername bodyQuote25 ≠ "" :=
  C10_username_fragment_amended bodyQuote25 25 rfl rfl (by decide)

end ArkoseAuth0
